import Mathlib

/-!
Shallow embedding of the FollowUPS ingestion-and-classification pipeline.

The definitions below are translated from the repository sources:
* `src/types.ts` — the `ImportStatus` enum and the `ImportItem` record;
* `src/services/importLogic.ts` — the persisted override maps
  (`saveShippedItem`, `removeShippedItem`, `saveExcludedItem`,
  `removeExcludedItem`), the status classifier `calculateStatus`, and the
  spreadsheet-row pipeline `processExcelData`;
* `src/App.tsx` — the dashboard aggregation `stats` and the four mutation
  handlers `handleMarkShipped`, `handleUnmarkShipped`, `handleExclude`,
  `handleRestore`;
* `src/components/DataTable.tsx` — the `STATUS_PRIORITY` table and the
  filtered-list sort comparator.

Modelling conventions:
* JavaScript `Date` values are modelled as milliseconds since the epoch
  (`Int`), with an `Option Int` where a `Date` object may be the JS
  `Invalid Date` (`none`).  Calendar-day arithmetic (`startOfDay`,
  `differenceInCalendarDays` from date-fns) is idealised as UTC day
  arithmetic on the millisecond count; the sources are timezone-naive.
* `new Date(string)` parsing is platform behaviour, so it enters the
  embedding as an explicit parameter `parse : String → Option Int`
  (`none` models an unparseable string, i.e. `Invalid Date`).
* A raw spreadsheet cell is a `CellValue`: a native date (possibly
  invalid), a string, an integer number, or blank/absent.  `truthy`
  models JavaScript truthiness of such a cell and `toStr` models
  `String(cell)` / template interpolation (dates render to an opaque
  non-empty string, which is all the pipeline ever relies on).
* `localStorage` maps (`id → {date}`) are association lists with
  JavaScript object-assignment semantics: assignment overwrites in
  place, deletion removes the key.
* Wall-clock reads (`new Date()`, `toISOString`) become explicit
  parameters (`nowMs : Int` for the import, `t : String` for the
  timestamps written by the handlers).
-/

namespace FollowUPS

/-- `ImportStatus` from `src/types.ts`. -/
inductive ImportStatus where
  | ATRASADO
  | CRITICO
  | ALERTA
  | PRODUCAO
  | EMBARCADO
  | NACIONAL
deriving DecidableEq, Repr

open ImportStatus

/-- `calculateStatus` from `importLogic.ts` (lines 66-71): classify a signed
day-delta into one of the four urgency states for imported items. -/
def calculateStatus (daysDiff : Int) : ImportStatus :=
  if daysDiff < 0 then ATRASADO
  else if daysDiff < 30 then CRITICO
  else if daysDiff ≤ 60 then ALERTA
  else PRODUCAO

/-- A raw spreadsheet cell value as produced by `sheet_to_json` with
`cellDates: true`: a native `Date` (possibly the JS `Invalid Date`,
modelled by `date none`), a string, a number, or blank/absent. -/
inductive CellValue where
  | date (validMs : Option Int)
  | str (s : String)
  | num (n : Int)
  | blank
deriving DecidableEq, Repr

/-- JavaScript truthiness of a raw cell: `Date` objects are always truthy
(even `Invalid Date`), a string is truthy iff non-empty, a number iff
non-zero, and `undefined` is falsy. -/
def truthy : CellValue → Bool
  | CellValue.date _ => true
  | CellValue.str s => s ≠ ""
  | CellValue.num n => n ≠ 0
  | CellValue.blank => false

/-- `String(cell)` / template interpolation of a raw cell.  A number
renders as its decimal numeral (JS integer formatting); a `Date` renders
as an opaque non-empty string (the pipeline never inspects it); `String`
of `undefined` is "undefined" (never reached on the paths modelled). -/
def toStr : CellValue → String
  | CellValue.date (some ms) => "Date(" ++ ms.repr ++ ")"
  | CellValue.date none => "Invalid Date"
  | CellValue.str s => s
  | CellValue.num n => n.repr
  | CellValue.blank => "undefined"

/-- UTC calendar-day index of a millisecond timestamp (floor division). -/
def dayNumber (ms : Int) : Int := Int.fdiv ms 86400000

/-- date-fns `startOfDay`, idealised to UTC: truncate to the day start. -/
def startOfDay (ms : Int) : Int := dayNumber ms * 86400000

/-- date-fns `differenceInCalendarDays a b`: calendar-day index of `a`
minus calendar-day index of `b`. -/
def differenceInCalendarDays (a b : Int) : Int := dayNumber a - dayNumber b

/-- One normalized domain record (`ImportItem` from `src/types.ts`).
`NECESS_PC`/`NECESS_SC` hold millisecond timestamps; `NUMERO_SC` is the
raw cell passed through unchanged (possibly absent). -/
structure ImportItem where
  id : String
  NUMERO_PO : String
  NUMERO_PC : String
  NUMERO_SC : CellValue
  NECESS_SC : Option Int
  NECESS_PC : Int
  RAZAO_FORNEC : String
  DESCR_PROD : String
  VOLUME_PC : String
  DIAS_PARA_NECESS : Int
  status : ImportStatus
  DATA_CHECK_EMBARQUE : Option String
  isExcluded : Bool
deriving DecidableEq, Repr

/-- Association-list store keyed by record identity, holding the ISO
timestamp written with each override (`Record<string, StoredRecord>` in
`importLogic.ts`). -/
abbrev OverrideMap := List (String × String)

/-- JS object lookup `m[k]`. -/
def mapGet : OverrideMap → String → Option String
  | [], _ => none
  | (k', v) :: rest, k => if k' = k then some v else mapGet rest k

/-- JS object assignment `m[k] = v`: overwrite in place, else append. -/
def mapSet : OverrideMap → String → String → OverrideMap
  | [], k, v => [(k, v)]
  | (k', v') :: rest, k, v =>
      if k' = k then (k, v) :: rest else (k', v') :: mapSet rest k v

/-- JS `delete m[k]` (as used guarded by `if (current[id])`). -/
def mapRemove : OverrideMap → String → OverrideMap
  | [], _ => []
  | (k', v') :: rest, k =>
      if k' = k then rest else (k', v') :: mapRemove rest k

/-- Truthiness test `!!m[k]`. -/
def mapContains (m : OverrideMap) (k : String) : Bool := (mapGet m k).isSome

/-- One raw spreadsheet row restricted to the recognized columns. -/
structure Row where
  NUMERO_PO : CellValue
  NUMERO_PC : CellValue
  NUMERO_SC : CellValue
  DESCR_PROD : CellValue
  RAZAO_FORNEC : CellValue
  VOLUME_PC : CellValue
  NECESS_PC : CellValue
  NECESS_SC : CellValue
deriving DecidableEq, Repr

/-- The `NECESS_PC` (required contract need-date) handling inside
`processExcelData`: start from `new Date()` (`nowMs`), overwrite from the
cell when it is a date, string or number, then replace an invalid result
with `today`. -/
def parseRequiredDate (parse : String → Option Int) (nowMs today : Int)
    (raw : CellValue) : Int :=
  let d : Option Int :=
    match raw with
    | CellValue.date v => v
    | CellValue.str s => parse s
    | CellValue.num n => some ((n - 25569) * 86400 * 1000)
    | CellValue.blank => some nowMs
  match d with
  | some ms => ms
  | none => today

/-- The `NECESS_SC` (optional request need-date) handling inside
`processExcelData`: only a truthy cell is parsed, and an invalid parse
resolves back to `undefined`. -/
def parseOptionalDate (parse : String → Option Int) (raw : CellValue) :
    Option Int :=
  if truthy raw then
    match raw with
    | CellValue.date v => v
    | CellValue.str s => parse s
    | CellValue.num n => some ((n - 25569) * 86400 * 1000)
    | CellValue.blank => none
  else none

/-- The per-row body of the `.map` inside `processExcelData` (`idx` is the
zero-based position in the sheet json); `none` models the `null` returned
for a structurally empty row. -/
def processRow (parse : String → Option Int) (nowMs today : Int)
    (shippedMap excludedMap : OverrideMap) (idx : Nat) (row : Row) :
    Option ImportItem :=
  let poRaw := row.NUMERO_PO
  let isNational : Bool :=
    match poRaw with
    | CellValue.blank => true
    | v => (toStr v).trim = ""
  if !truthy poRaw && !truthy row.NUMERO_PC && !truthy row.DESCR_PROD then
    none
  else
    let po : String := if isNational then "" else toStr poRaw
    let pc : String := if truthy row.NUMERO_PC then toStr row.NUMERO_PC else "N/A"
    let produto : String := if truthy row.DESCR_PROD then toStr row.DESCR_PROD else ""
    let id : String :=
      if isNational then "NAT-" ++ pc ++ "-" ++ Nat.repr idx
      else po ++ "-" ++ pc ++ "-" ++ Nat.repr idx
    let necessDate : Int := parseRequiredDate parse nowMs today row.NECESS_PC
    let necessSC : Option Int := parseOptionalDate parse row.NECESS_SC
    let daysDiff : Int := differenceInCalendarDays necessDate today
    let status : ImportStatus :=
      if isNational then NACIONAL
      else if mapContains shippedMap id then EMBARCADO
      else calculateStatus daysDiff
    some {
      id := id
      NUMERO_PO := po
      NUMERO_PC := pc
      NUMERO_SC := row.NUMERO_SC
      NECESS_SC := necessSC
      NECESS_PC := necessDate
      RAZAO_FORNEC := if truthy row.RAZAO_FORNEC then toStr row.RAZAO_FORNEC else "-"
      DESCR_PROD := if produto = "" then "-" else produto
      VOLUME_PC := if truthy row.VOLUME_PC then toStr row.VOLUME_PC else "-"
      DIAS_PARA_NECESS := daysDiff
      status := status
      DATA_CHECK_EMBARQUE :=
        if !isNational && mapContains shippedMap id then mapGet shippedMap id
        else none
      isExcluded := mapContains excludedMap id }

/-- `processExcelData` after the XLSX decode: map each row (with its
ordinal) through `processRow` and drop the `null`s. -/
def processExcelData (parse : String → Option Int) (nowMs : Int)
    (shippedMap excludedMap : OverrideMap) (rows : List Row) :
    List ImportItem :=
  let today := startOfDay nowMs
  (rows.enum).filterMap fun p => processRow parse nowMs today shippedMap excludedMap p.1 p.2

/-- `DashboardStats` from `src/types.ts`. -/
structure DashboardStats where
  totalImported : Nat
  totalNational : Nat
  atrasado : Nat
  critico : Nat
  alerta : Nat
  producao : Nat
  embarcado : Nat
  followUpNeeded : Nat
deriving DecidableEq, Repr

/-- The reducer body of the `stats` memo in `App.tsx`. -/
def statsStep (acc : DashboardStats) (item : ImportItem) : DashboardStats :=
  if item.status = NACIONAL then
    { acc with totalNational := acc.totalNational + 1 }
  else
    let acc := { acc with totalImported := acc.totalImported + 1 }
    let acc := if item.status = ATRASADO then { acc with atrasado := acc.atrasado + 1 } else acc
    let acc := if item.status = CRITICO then { acc with critico := acc.critico + 1 } else acc
    let acc := if item.status = ALERTA then { acc with alerta := acc.alerta + 1 } else acc
    let acc := if item.status = PRODUCAO then { acc with producao := acc.producao + 1 } else acc
    let acc := if item.status = EMBARCADO then { acc with embarcado := acc.embarcado + 1 } else acc
    if item.status = CRITICO ∨ item.status = ALERTA then
      { acc with followUpNeeded := acc.followUpNeeded + 1 }
    else acc

/-- The `stats` memo in `App.tsx`: reduce the non-excluded (`active`)
items starting from the all-zero accumulator. -/
def stats (items : List ImportItem) : DashboardStats :=
  (items.filter fun i => !i.isExcluded).foldl statsStep
    { totalImported := 0, totalNational := 0, atrasado := 0, critico := 0,
      alerta := 0, producao := 0, embarcado := 0, followUpNeeded := 0 }

/-- `STATUS_PRIORITY` from `DataTable.tsx`: the partial priority map
(every enum value is mapped; an unmapped status would yield `none`). -/
def STATUS_PRIORITY (s : ImportStatus) : Option Nat :=
  match s with
  | ATRASADO => some 1
  | CRITICO => some 2
  | ALERTA => some 3
  | PRODUCAO => some 4
  | EMBARCADO => some 5
  | NACIONAL => some 6

/-- `STATUS_PRIORITY[status] || 99` in the sort comparator. -/
def statusPriorityOr99 (s : ImportStatus) : Nat := (STATUS_PRIORITY s).getD 99

/-- The sort comparator of `processedItems` in `DataTable.tsx`, as the
non-strict order it induces (`compare a b ≤ 0`): primary key status
priority, secondary key `DIAS_PARA_NECESS` ascending. -/
def sortLE (a b : ImportItem) : Bool :=
  if statusPriorityOr99 a.status = statusPriorityOr99 b.status then
    a.DIAS_PARA_NECESS ≤ b.DIAS_PARA_NECESS
  else
    statusPriorityOr99 a.status < statusPriorityOr99 b.status

/-- The `.sort` call of `processedItems`: JavaScript `Array.prototype.sort`
is a stable sort, modelled by the (stable) `List.mergeSort`. -/
def sortItems (l : List ImportItem) : List ImportItem := l.mergeSort sortLE

/-- The reactive state of `App.tsx` that the mutation handlers touch: the
working record collection plus the two persisted override maps. -/
structure AppState where
  items : List ImportItem
  shipped : OverrideMap
  excluded : OverrideMap
deriving DecidableEq, Repr

/-- `saveShippedItem` from `importLogic.ts` (`t` is the ISO timestamp of
`new Date()`). -/
def saveShippedItem (m : OverrideMap) (id t : String) : OverrideMap :=
  mapSet m id t

/-- `removeShippedItem` from `importLogic.ts`. -/
def removeShippedItem (m : OverrideMap) (id : String) : OverrideMap :=
  mapRemove m id

/-- `handleMarkShipped` from `App.tsx`: persist the shipped override
(unconditionally), then transition the matching non-NACIONAL record. -/
def handleMarkShipped (s : AppState) (id t : String) : AppState :=
  { s with
    shipped := saveShippedItem s.shipped id t
    items := s.items.map fun item =>
      if item.id = id ∧ item.status ≠ NACIONAL then
        { item with status := EMBARCADO, DATA_CHECK_EMBARQUE := some t }
      else item }

/-- `handleUnmarkShipped` from `App.tsx`: clear the shipped override, then
re-derive the matching EMBARCADO record from its stored day-delta. -/
def handleUnmarkShipped (s : AppState) (id : String) : AppState :=
  { s with
    shipped := removeShippedItem s.shipped id
    items := s.items.map fun item =>
      if item.id = id ∧ item.status = EMBARCADO then
        { item with status := calculateStatus item.DIAS_PARA_NECESS,
                    DATA_CHECK_EMBARQUE := none }
      else item }

/-- `handleExclude` from `App.tsx`. -/
def handleExclude (s : AppState) (id t : String) : AppState :=
  { s with
    excluded := mapSet s.excluded id t
    items := s.items.map fun item =>
      if item.id = id then { item with isExcluded := true } else item }

/-- `handleRestore` from `App.tsx`. -/
def handleRestore (s : AppState) (id : String) : AppState :=
  { s with
    excluded := mapRemove s.excluded id
    items := s.items.map fun item =>
      if item.id = id then { item with isExcluded := false } else item }

/-- A concrete record, used by concrete instantiations below. -/
def mkItem (id : String) (st : ImportStatus) (d : Int) (excl : Bool) : ImportItem :=
  { id := id, NUMERO_PO := "PO1", NUMERO_PC := "PC1", NUMERO_SC := CellValue.blank,
    NECESS_SC := none, NECESS_PC := 0, RAZAO_FORNEC := "-", DESCR_PROD := "-",
    VOLUME_PC := "-", DIAS_PARA_NECESS := d, status := st,
    DATA_CHECK_EMBARQUE := none, isExcluded := excl }

/-! ### Helper lemmas (shared) -/

theorem mapGet_mapSet_self (m : OverrideMap) (k v : String) :
    mapGet (mapSet m k v) k = some v := by
  induction m with
  | nil => simp [mapSet, mapGet]
  | cons kv rest ih =>
    obtain ⟨k', v'⟩ := kv
    by_cases h : k' = k
    · simp [mapSet, mapGet, h]
    · simp [mapSet, mapGet, h, ih]

theorem processRow_isExcluded (parse : String → Option Int) (nowMs today : Int)
    (sm em : OverrideMap) (idx : Nat) (row : Row) (item : ImportItem)
    (h : processRow parse nowMs today sm em idx row = some item) :
    item.isExcluded = mapContains em item.id := by
  by_cases hc : (!truthy row.NUMERO_PO && !truthy row.NUMERO_PC && !truthy row.DESCR_PROD) = true
  · simp only [processRow, hc, if_true] at h
    cases h
  · simp only [processRow, hc, if_false, Bool.false_eq_true] at h
    rw [Option.some_inj] at h
    subst h
    rfl

theorem dayNumber_startOfDay (ms : Int) : dayNumber (startOfDay ms) = dayNumber ms := by
  unfold startOfDay dayNumber
  exact Int.mul_fdiv_cancel _ (by decide)

/-! ### C1 — the status classifier -/

/-- C1: `calculateStatus` sends every integer day-delta `d` to ATRASADO
when `d < 0`, CRITICO when `0 ≤ d < 30`, ALERTA when `30 ≤ d ≤ 60` and
PRODUCAO when `d > 60`; the boundary values 29/30/60/61 classify as
CRITICO/ALERTA/ALERTA/PRODUCAO, and every integer lands in exactly one
of those four statuses. -/
theorem calculateStatus_spec (d : Int) :
    (d < 0 → calculateStatus d = ATRASADO) ∧
    (0 ≤ d → d < 30 → calculateStatus d = CRITICO) ∧
    (30 ≤ d → d ≤ 60 → calculateStatus d = ALERTA) ∧
    (60 < d → calculateStatus d = PRODUCAO) ∧
    calculateStatus 29 = CRITICO ∧ calculateStatus 30 = ALERTA ∧
    calculateStatus 60 = ALERTA ∧ calculateStatus 61 = PRODUCAO ∧
    (calculateStatus d = ATRASADO ∨ calculateStatus d = CRITICO ∨
      calculateStatus d = ALERTA ∨ calculateStatus d = PRODUCAO) := by
  refine ⟨fun h => ?_, fun h1 h2 => ?_, fun h1 h2 => ?_, fun h => ?_,
    by decide, by decide, by decide, by decide, ?_⟩ <;>
    unfold calculateStatus <;> split_ifs <;> first | rfl | omega | tauto

/-- Witness for C1 at `d = -5`. -/
theorem calculateStatus_spec_witness :
    (-5 : Int) < 0 ∧ calculateStatus (-5) = ATRASADO :=
  ⟨by decide, (calculateStatus_spec (-5)).1 (by decide)⟩

/-! ### C2 — markShipped on a NACIONAL record -/

/-- C2 counterexample: marking a NACIONAL record shipped is NOT a no-op
on the persistent shipped override store — `saveShippedItem` runs before
the status check, so the store gains an entry even though the record
itself is untouched. -/
theorem markShipped_national_writes_store :
    (handleMarkShipped
        { items := [mkItem "NAT-PC1-0" NACIONAL 0 false], shipped := [], excluded := [] }
        "NAT-PC1-0" "2024-01-01T00:00:00.000Z").shipped ≠
      ({ items := [mkItem "NAT-PC1-0" NACIONAL 0 false], shipped := [], excluded := [] } :
        AppState).shipped := by
  decide

/-- C2 amended: when every record carrying the identity is NACIONAL,
`handleMarkShipped` leaves the whole record collection (hence the record:
status, `shippedAt`, every field) and the excluded store unchanged and
surfaces no exception, but the persistent shipped override store does
gain (or refresh) an entry for the identity. -/
theorem markShipped_national_leaves_items (s : AppState) (id t : String)
    (h : ∀ r ∈ s.items, r.id = id → r.status = NACIONAL) :
    (handleMarkShipped s id t).items = s.items ∧
    (handleMarkShipped s id t).shipped = mapSet s.shipped id t ∧
    (handleMarkShipped s id t).excluded = s.excluded := by
  refine ⟨?_, rfl, rfl⟩
  show s.items.map _ = s.items
  conv_rhs => rw [← List.map_id s.items]
  refine List.map_congr_left fun r hr => ?_
  rw [if_neg (fun hc => hc.2 (h r hr hc.1))]
  rfl

/-- Witness for C2 on a one-record NACIONAL state. -/
theorem markShipped_national_leaves_items_witness :
    (handleMarkShipped
        { items := [mkItem "NAT-PC1-0" NACIONAL 0 false], shipped := [], excluded := [] }
        "NAT-PC1-0" "T").items =
      ({ items := [mkItem "NAT-PC1-0" NACIONAL 0 false], shipped := [], excluded := [] } :
        AppState).items :=
  (markShipped_national_leaves_items
    { items := [mkItem "NAT-PC1-0" NACIONAL 0 false], shipped := [], excluded := [] }
    "NAT-PC1-0" "T" (by decide)).1

/-! ### C3 — markShipped then unmarkShipped -/

/-- C3: for a record `r` with the given identity whose status is neither
NACIONAL (i.e. origin IMPORTED) nor EMBARCADO, `handleMarkShipped`
followed by `handleUnmarkShipped` leaves in the collection the record
`r` with its status re-derived as `calculateStatus` of the stored
`DIAS_PARA_NECESS` (the day-delta frozen at import time — it is never
recomputed from the clock) and `DATA_CHECK_EMBARQUE` cleared, all other
fields unchanged. -/
theorem markShipped_unmarkShipped_restores (s : AppState) (id t : String)
    (r : ImportItem) (hr : r ∈ s.items) (hid : r.id = id)
    (hnat : r.status ≠ NACIONAL) (hemb : r.status ≠ EMBARCADO) :
    { r with status := calculateStatus r.DIAS_PARA_NECESS,
             DATA_CHECK_EMBARQUE := none } ∈
      (handleUnmarkShipped (handleMarkShipped s id t) id).items := by
  show _ ∈ ((s.items.map _).map _)
  rw [List.map_map]
  refine List.mem_map.mpr ⟨r, hr, ?_⟩
  show (fun item =>
      if item.id = id ∧ item.status = EMBARCADO then
        { item with status := calculateStatus item.DIAS_PARA_NECESS,
                    DATA_CHECK_EMBARQUE := none }
      else item)
    ((fun item =>
      if item.id = id ∧ item.status ≠ NACIONAL then
        { item with status := EMBARCADO, DATA_CHECK_EMBARQUE := some t }
      else item) r) =
    { r with status := calculateStatus r.DIAS_PARA_NECESS, DATA_CHECK_EMBARQUE := none }
  rw [show ((fun item =>
      if item.id = id ∧ item.status ≠ NACIONAL then
        { item with status := EMBARCADO, DATA_CHECK_EMBARQUE := some t }
      else item) r) =
      { r with status := EMBARCADO, DATA_CHECK_EMBARQUE := some t } from if_pos ⟨hid, hnat⟩]
  rw [show ((fun item =>
      if item.id = id ∧ item.status = EMBARCADO then
        { item with status := calculateStatus item.DIAS_PARA_NECESS,
                    DATA_CHECK_EMBARQUE := none }
      else item)
      ({ r with status := EMBARCADO, DATA_CHECK_EMBARQUE := some t } : ImportItem)) =
      { r with status := calculateStatus r.DIAS_PARA_NECESS, DATA_CHECK_EMBARQUE := none }
      from if_pos ⟨hid, rfl⟩]

/-- Witness for C3 on a one-record CRITICO state. -/
theorem markShipped_unmarkShipped_restores_witness :
    { mkItem "PO1-PC1-0" CRITICO 10 false with
        status := calculateStatus (mkItem "PO1-PC1-0" CRITICO 10 false).DIAS_PARA_NECESS,
        DATA_CHECK_EMBARQUE := none } ∈
      (handleUnmarkShipped
        (handleMarkShipped
          { items := [mkItem "PO1-PC1-0" CRITICO 10 false], shipped := [], excluded := [] }
          "PO1-PC1-0" "T")
        "PO1-PC1-0").items :=
  markShipped_unmarkShipped_restores
    { items := [mkItem "PO1-PC1-0" CRITICO 10 false], shipped := [], excluded := [] }
    "PO1-PC1-0" "T" (mkItem "PO1-PC1-0" CRITICO 10 false)
    (by decide) rfl (by decide) (by decide)

/-! ### C8 — exclude / restore -/

/-- C8 counterexample: for a record that is already excluded,
`handleExclude` followed by `handleRestore` does NOT return the record
to its original state — the final record has `isExcluded = false`,
whereas the original had `isExcluded = true`. -/
theorem exclude_restore_not_identity :
    (handleRestore
        (handleExclude
          { items := [mkItem "PO1-PC1-0" CRITICO 10 true],
            shipped := [], excluded := [("PO1-PC1-0", "T0")] }
          "PO1-PC1-0" "T1")
        "PO1-PC1-0").items ≠ [mkItem "PO1-PC1-0" CRITICO 10 true] := by
  decide

/-- C8 amended: excluding changes only the excluded flag — the collection
contains the record with every other field of `r` intact, and the
status and `DATA_CHECK_EMBARQUE` columns of the whole collection are
untouched by both exclude and restore; exclude followed by restore
returns `r` exactly to its original state provided `r` was not already
excluded (in general the final record has `isExcluded = false`). -/
theorem exclude_restore_spec (s : AppState) (t : String)
    (r : ImportItem) (hr : r ∈ s.items) :
    { r with isExcluded := true } ∈ (handleExclude s r.id t).items ∧
    (handleExclude s r.id t).items.map (fun i => i.status) =
      s.items.map (fun i => i.status) ∧
    (handleExclude s r.id t).items.map (fun i => i.DATA_CHECK_EMBARQUE) =
      s.items.map (fun i => i.DATA_CHECK_EMBARQUE) ∧
    (handleRestore (handleExclude s r.id t) r.id).items.map (fun i => i.status) =
      s.items.map (fun i => i.status) ∧
    (r.isExcluded = false →
      r ∈ (handleRestore (handleExclude s r.id t) r.id).items) := by
  refine ⟨?_, ?_, ?_, ?_, fun hexcl => ?_⟩
  · exact List.mem_map.mpr ⟨r, hr, by rw [if_pos rfl]⟩
  · show (s.items.map _).map _ = _
    rw [List.map_map]
    refine List.map_congr_left fun i _ => ?_
    simp only [Function.comp_apply]
    by_cases hi : i.id = r.id <;> simp [hi]
  · show (s.items.map _).map _ = _
    rw [List.map_map]
    refine List.map_congr_left fun i _ => ?_
    simp only [Function.comp_apply]
    by_cases hi : i.id = r.id <;> simp [hi]
  · show ((s.items.map _).map _).map _ = _
    rw [List.map_map, List.map_map]
    refine List.map_congr_left fun i _ => ?_
    simp only [Function.comp_apply]
    by_cases hi : i.id = r.id <;> simp [hi]
  · show _ ∈ (s.items.map _).map _
    rw [List.map_map]
    refine List.mem_map.mpr ⟨r, hr, ?_⟩
    show (fun item => if item.id = r.id then { item with isExcluded := false } else item)
        ((fun item => if item.id = r.id then { item with isExcluded := true } else item) r) = r
    rw [show ((fun item => if item.id = r.id then { item with isExcluded := true } else item) r)
        = { r with isExcluded := true } from if_pos rfl]
    rw [show ((fun item => if item.id = r.id then { item with isExcluded := false } else item)
        ({ r with isExcluded := true } : ImportItem))
        = { r with isExcluded := false } from if_pos rfl]
    rw [← hexcl]

/-- Witness for C8 on a one-record not-excluded state. -/
theorem exclude_restore_spec_witness :
    { mkItem "PO1-PC1-0" CRITICO 10 false with isExcluded := true } ∈
      (handleExclude
        { items := [mkItem "PO1-PC1-0" CRITICO 10 false], shipped := [], excluded := [] }
        (mkItem "PO1-PC1-0" CRITICO 10 false).id "T").items ∧
    (mkItem "PO1-PC1-0" CRITICO 10 false).isExcluded = false :=
  ⟨(exclude_restore_spec
      { items := [mkItem "PO1-PC1-0" CRITICO 10 false], shipped := [], excluded := [] }
      "T" (mkItem "PO1-PC1-0" CRITICO 10 false) (by decide)).1,
   by decide⟩

/-! ### C10 — exclude on an identity with no matching record -/

/-- C10: excluding an identity that matches no record leaves every record
unchanged but still persists the entry in the excluded override store,
so any record a later import builds with that identity comes out with
`isExcluded = true`. -/
theorem exclude_unknown_id_spec (s : AppState) (id t : String)
    (h : ∀ r ∈ s.items, r.id ≠ id) :
    (handleExclude s id t).items = s.items ∧
    mapGet (handleExclude s id t).excluded id = some t ∧
    (∀ parse nowMs today sm idx row item,
      processRow parse nowMs today sm (handleExclude s id t).excluded idx row =
        some item →
      item.id = id → item.isExcluded = true) := by
  refine ⟨?_, ?_, fun parse nowMs today sm idx row item hrow hid => ?_⟩
  · show s.items.map _ = s.items
    conv_rhs => rw [← List.map_id s.items]
    refine List.map_congr_left fun r hr => ?_
    rw [if_neg (h r hr)]
    rfl
  · exact mapGet_mapSet_self s.excluded id t
  · rw [processRow_isExcluded parse nowMs today sm _ idx row item hrow, hid]
    show ((mapGet (mapSet s.excluded id t) id).isSome = true)
    rw [mapGet_mapSet_self]
    rfl

/-- Witness for C10 on a state with no matching record. -/
theorem exclude_unknown_id_spec_witness :
    (handleExclude
        { items := [mkItem "PO1-PC1-0" CRITICO 10 false], shipped := [], excluded := [] }
        "GHOST-1" "T").items =
      ({ items := [mkItem "PO1-PC1-0" CRITICO 10 false], shipped := [], excluded := [] } :
        AppState).items ∧
    mapGet (handleExclude
        { items := [mkItem "PO1-PC1-0" CRITICO 10 false], shipped := [], excluded := [] }
        "GHOST-1" "T").excluded "GHOST-1" = some "T" :=
  ⟨(exclude_unknown_id_spec
      { items := [mkItem "PO1-PC1-0" CRITICO 10 false], shipped := [], excluded := [] }
      "GHOST-1" "T" (by decide)).1,
   (exclude_unknown_id_spec
      { items := [mkItem "PO1-PC1-0" CRITICO 10 false], shipped := [], excluded := [] }
      "GHOST-1" "T" (by decide)).2.1⟩

/-! ### C6 — the aggregator -/

theorem foldl_statsStep (l : List ImportItem) (acc : DashboardStats) :
    l.foldl statsStep acc =
      { totalImported := acc.totalImported + l.countP (fun i => !(decide (i.status = NACIONAL))),
        totalNational := acc.totalNational + l.countP (fun i => decide (i.status = NACIONAL)),
        atrasado := acc.atrasado + l.countP (fun i => decide (i.status = ATRASADO)),
        critico := acc.critico + l.countP (fun i => decide (i.status = CRITICO)),
        alerta := acc.alerta + l.countP (fun i => decide (i.status = ALERTA)),
        producao := acc.producao + l.countP (fun i => decide (i.status = PRODUCAO)),
        embarcado := acc.embarcado + l.countP (fun i => decide (i.status = EMBARCADO)),
        followUpNeeded := acc.followUpNeeded + l.countP (fun i => decide (i.status = CRITICO)) +
          l.countP (fun i => decide (i.status = ALERTA)) } := by
  induction l generalizing acc with
  | nil => simp
  | cons i l ih =>
    rw [List.foldl_cons, ih]
    rcases hstatus : i.status <;>
      simp [statsStep, hstatus, List.countP_cons, DashboardStats.mk.injEq] <;> omega

/-- C6: the aggregator works on non-excluded records only and yields the
per-status counts among IMPORTED (non-NACIONAL) records, a separate
NATIONAL total and `followUpNeeded = count(CRITICO) + count(ALERTA)`;
on statuses `[ATRASADO, ATRASADO, CRITICO, NACIONAL, NACIONAL]` (none
excluded) it yields `atrasado = 2`, `critico = 1`, `totalImported = 3`,
`totalNational = 2`, `followUpNeeded = 1`. -/
theorem stats_spec (items : List ImportItem) :
    stats items =
      { totalImported := (items.filter fun i => !i.isExcluded).countP
          (fun i => !(decide (i.status = NACIONAL))),
        totalNational := (items.filter fun i => !i.isExcluded).countP
          (fun i => decide (i.status = NACIONAL)),
        atrasado := (items.filter fun i => !i.isExcluded).countP
          (fun i => decide (i.status = ATRASADO)),
        critico := (items.filter fun i => !i.isExcluded).countP
          (fun i => decide (i.status = CRITICO)),
        alerta := (items.filter fun i => !i.isExcluded).countP
          (fun i => decide (i.status = ALERTA)),
        producao := (items.filter fun i => !i.isExcluded).countP
          (fun i => decide (i.status = PRODUCAO)),
        embarcado := (items.filter fun i => !i.isExcluded).countP
          (fun i => decide (i.status = EMBARCADO)),
        followUpNeeded :=
          (items.filter fun i => !i.isExcluded).countP (fun i => decide (i.status = CRITICO)) +
          (items.filter fun i => !i.isExcluded).countP (fun i => decide (i.status = ALERTA)) } ∧
    stats [mkItem "r0" ATRASADO 0 false, mkItem "r1" ATRASADO 0 false,
           mkItem "r2" CRITICO 0 false, mkItem "r3" NACIONAL 0 false,
           mkItem "r4" NACIONAL 0 false] =
      { totalImported := 3, totalNational := 2, atrasado := 2, critico := 1,
        alerta := 0, producao := 0, embarcado := 0, followUpNeeded := 1 } := by
  constructor
  · unfold stats
    rw [foldl_statsStep]
    simp
  · decide

/-! ### C7 — the query-engine sort -/

theorem sortLE_total (a b : ImportItem) : sortLE a b || sortLE b a := by
  unfold sortLE
  by_cases h : statusPriorityOr99 a.status = statusPriorityOr99 b.status
  · rw [if_pos h, if_pos h.symm]
    simp
    omega
  · rw [if_neg h, if_neg (Ne.symm h)]
    simp
    omega

theorem sortLE_trans (a b c : ImportItem) (h1 : sortLE a b) (h2 : sortLE b c) :
    sortLE a c := by
  unfold sortLE at h1 h2 ⊢
  split_ifs at h1 h2 ⊢ <;> simp_all <;> omega

theorem sortItems_stable (l : List ImportItem) (p : ImportItem → Bool)
    (hp : ∀ a b, p a → p b → sortLE a b) :
    (sortItems l).filter p = l.filter p := by
  have hpair : (l.filter p).Pairwise (fun a b => sortLE a b = true) := by
    refine List.pairwise_of_forall_mem_list fun a ha b hb => ?_
    exact hp a b (List.of_mem_filter ha) (List.of_mem_filter hb)
  have hsub : List.Sublist (l.filter p) (sortItems l) :=
    List.sublist_mergeSort sortLE_trans sortLE_total hpair (List.filter_sublist l)
  have hsub2 : List.Sublist (l.filter p) ((sortItems l).filter p) := by
    have := hsub.filter p
    rwa [List.filter_filter, (by funext a; simp : (fun a => p a && p a) = p)] at this
  have hperm : List.Perm ((sortItems l).filter p) (l.filter p) :=
    (List.mergeSort_perm l sortLE).filter p
  exact (hsub2.eq_of_length hperm.length_eq.symm).symm

/-- C7: the table sort orders primarily by the fixed priority
ATRASADO(1) < CRITICO(2) < ALERTA(3) < PRODUCAO(4) < EMBARCADO(5) <
NACIONAL(6) (a status missing from the priority map would default to
99), secondarily by `DIAS_PARA_NECESS` ascending; the sort is a
permutation and stable (records tied on both keys keep their input
order); the concrete four-record instance sorts as claimed. -/
theorem sort_spec :
    statusPriorityOr99 ATRASADO = 1 ∧ statusPriorityOr99 CRITICO = 2 ∧
    statusPriorityOr99 ALERTA = 3 ∧ statusPriorityOr99 PRODUCAO = 4 ∧
    statusPriorityOr99 EMBARCADO = 5 ∧ statusPriorityOr99 NACIONAL = 6 ∧
    (∀ s, statusPriorityOr99 s = (STATUS_PRIORITY s).getD 99) ∧
    (∀ l, (sortItems l).Pairwise (fun a b => sortLE a b = true)) ∧
    (∀ l, List.Perm (sortItems l) l) ∧
    (∀ (l : List ImportItem) (k : Nat) (d : Int),
      (sortItems l).filter (fun x => decide (statusPriorityOr99 x.status = k) &&
        decide (x.DIAS_PARA_NECESS = d)) =
      l.filter (fun x => decide (statusPriorityOr99 x.status = k) &&
        decide (x.DIAS_PARA_NECESS = d))) ∧
    sortItems [mkItem "i0" ALERTA 45 false, mkItem "i1" ATRASADO (-3) false,
               mkItem "i2" CRITICO 10 false, mkItem "i3" PRODUCAO 90 false] =
      [mkItem "i1" ATRASADO (-3) false, mkItem "i2" CRITICO 10 false,
       mkItem "i0" ALERTA 45 false, mkItem "i3" PRODUCAO 90 false] := by
  refine ⟨rfl, rfl, rfl, rfl, rfl, rfl, fun s => rfl, fun l => ?_, fun l => ?_,
    fun l k d => ?_, ?_⟩
  · exact List.sorted_mergeSort sortLE_trans sortLE_total l
  · exact List.mergeSort_perm l sortLE
  · refine sortItems_stable l _ fun a b ha hb => ?_
    simp only [Bool.and_eq_true, decide_eq_true_eq] at ha hb
    unfold sortLE
    rw [if_pos (ha.1.trans hb.1.symm)]
    simp [ha.2, hb.2]
  · simp [sortItems, List.mergeSort, List.splitInTwo, List.splitAt_eq, List.merge, sortLE,
      statusPriorityOr99, STATUS_PRIORITY, mkItem]

/-! ### C4 — lenient date handling during import -/

/-- A row with a present purchase order but an absent (blank) required
contract need-date cell. -/
def c4Row : Row :=
  { NUMERO_PO := CellValue.str "PO1", NUMERO_PC := CellValue.str "PC1",
    NUMERO_SC := CellValue.blank, DESCR_PROD := CellValue.str "prod",
    RAZAO_FORNEC := CellValue.blank, VOLUME_PC := CellValue.blank,
    NECESS_PC := CellValue.blank, NECESS_SC := CellValue.blank }

/-- C4 counterexample: with the clock at 1000 ms past midnight, a row
whose required contract need-date cell is ABSENT is built with
`NECESS_PC` equal to the current instant (1000), not to today at
start-of-day (0) — only an invalid (not absent) value is replaced
with start-of-day today. -/
theorem requiredDate_absent_not_startOfDay :
    ((processRow (fun _ => none) 1000 (startOfDay 1000) [] [] 0 c4Row).map
      fun i => i.NECESS_PC) = some 1000 ∧
    startOfDay 1000 = 0 ∧ (1000 : Int) ≠ 0 := by decide

/-- C4 amended: a row with any of the three key fields present is always
emitted regardless of its dates; an invalid required contract need-date
(invalid native date, or unparseable string) is replaced with today at
start-of-day, while an absent one is replaced with the current instant
(same calendar day, so the stored day-delta is 0); an invalid optional
request need-date resolves to absent and is never defaulted. -/
theorem importDate_leniency (parse : String → Option Int) (nowMs : Int)
    (sm em : OverrideMap) (idx : Nat) (row : Row)
    (hkeep : (truthy row.NUMERO_PO || truthy row.NUMERO_PC || truthy row.DESCR_PROD) = true) :
    (processRow parse nowMs (startOfDay nowMs) sm em idx row).isSome = true ∧
    (row.NECESS_PC = CellValue.date none →
      (processRow parse nowMs (startOfDay nowMs) sm em idx row).map (fun i => i.NECESS_PC) =
        some (startOfDay nowMs)) ∧
    (∀ s, row.NECESS_PC = CellValue.str s → parse s = none →
      (processRow parse nowMs (startOfDay nowMs) sm em idx row).map (fun i => i.NECESS_PC) =
        some (startOfDay nowMs)) ∧
    (row.NECESS_PC = CellValue.blank →
      (processRow parse nowMs (startOfDay nowMs) sm em idx row).map (fun i => i.NECESS_PC) =
        some nowMs ∧
      (processRow parse nowMs (startOfDay nowMs) sm em idx row).map
        (fun i => i.DIAS_PARA_NECESS) = some 0) ∧
    (row.NECESS_SC = CellValue.date none →
      (processRow parse nowMs (startOfDay nowMs) sm em idx row).map (fun i => i.NECESS_SC) =
        some none) ∧
    (∀ s, row.NECESS_SC = CellValue.str s → s ≠ "" → parse s = none →
      (processRow parse nowMs (startOfDay nowMs) sm em idx row).map (fun i => i.NECESS_SC) =
        some none) := by
  have hc : (!truthy row.NUMERO_PO && !truthy row.NUMERO_PC && !truthy row.DESCR_PROD) = false := by
    cases h1 : truthy row.NUMERO_PO <;> cases h2 : truthy row.NUMERO_PC <;>
      cases h3 : truthy row.DESCR_PROD <;> simp_all
  refine ⟨?_, fun hpc => ?_, fun s hpc hps => ?_, fun hpc => ⟨?_, ?_⟩, fun hsc => ?_,
    fun s hsc hne hps => ?_⟩ <;>
    simp only [processRow, hc, Bool.false_eq_true, if_false, Option.map_some', Option.isSome_some]
  · simp [parseRequiredDate, hpc]
  · simp [parseRequiredDate, hpc, hps]
  · simp [parseRequiredDate, hpc]
  · simp [parseRequiredDate, hpc, differenceInCalendarDays, dayNumber_startOfDay]
  · simp [parseOptionalDate, hsc, truthy]
  · simp [parseOptionalDate, hsc, truthy, hne, hps]

/-- A row like `c4Row` but whose required contract need-date cell is an
invalid native Date. -/
def c4wRow : Row :=
  { NUMERO_PO := CellValue.str "PO1", NUMERO_PC := CellValue.str "PC1",
    NUMERO_SC := CellValue.blank, DESCR_PROD := CellValue.str "prod",
    RAZAO_FORNEC := CellValue.blank, VOLUME_PC := CellValue.blank,
    NECESS_PC := CellValue.date none, NECESS_SC := CellValue.blank }

/-- Witness for C4: an invalid required date is replaced with start-of-day. -/
theorem importDate_leniency_witness :
    ((processRow (fun _ => none) 1000 (startOfDay 1000) [] [] 0 c4wRow).map
      fun i => i.NECESS_PC) = some (startOfDay 1000) :=
  (importDate_leniency (fun _ => none) 1000 [] [] 0 c4wRow (by decide)).2.1 rfl

/-! ### C5 — placeholder defaults for absent descriptive fields -/

/-- A row with absent purchase-contract and request-contract numbers. -/
def c5Row : Row :=
  { NUMERO_PO := CellValue.str "PO1", NUMERO_PC := CellValue.blank,
    NUMERO_SC := CellValue.blank, DESCR_PROD := CellValue.str "prod",
    RAZAO_FORNEC := CellValue.blank, VOLUME_PC := CellValue.blank,
    NECESS_PC := CellValue.date (some 0), NECESS_SC := CellValue.blank }

/-- C5 counterexample: on a row with absent purchase-contract and
request-contract numbers, the built record carries "N/A" (not "-") in
the purchase-contract field and leaves the request-contract field
absent (not "-"). -/
theorem missing_contract_numbers_not_dash :
    ((processRow (fun _ => none) 0 (startOfDay 0) [] [] 0 c5Row).map
      fun i => (i.NUMERO_PC, i.NUMERO_SC)) = some ("N/A", CellValue.blank) ∧
    ("N/A" : String) ≠ "-" ∧ CellValue.blank ≠ CellValue.str "-" := by decide

/-- C5 amended: an absent supplier-name, product-description or volume
field defaults to the placeholder "-" in the built record, but an
absent purchase-contract number defaults to "N/A" and an absent
request-contract number is passed through as absent. -/
theorem missing_fields_defaults (parse : String → Option Int) (nowMs today : Int)
    (sm em : OverrideMap) (idx : Nat) (row : Row)
    (hkeep : (truthy row.NUMERO_PO || truthy row.NUMERO_PC || truthy row.DESCR_PROD) = true) :
    (row.RAZAO_FORNEC = CellValue.blank →
      (processRow parse nowMs today sm em idx row).map (fun i => i.RAZAO_FORNEC) = some "-") ∧
    (row.DESCR_PROD = CellValue.blank →
      (processRow parse nowMs today sm em idx row).map (fun i => i.DESCR_PROD) = some "-") ∧
    (row.VOLUME_PC = CellValue.blank →
      (processRow parse nowMs today sm em idx row).map (fun i => i.VOLUME_PC) = some "-") ∧
    (row.NUMERO_PC = CellValue.blank →
      (processRow parse nowMs today sm em idx row).map (fun i => i.NUMERO_PC) = some "N/A") ∧
    (row.NUMERO_SC = CellValue.blank →
      (processRow parse nowMs today sm em idx row).map (fun i => i.NUMERO_SC) =
        some CellValue.blank) := by
  have hc : (!truthy row.NUMERO_PO && !truthy row.NUMERO_PC && !truthy row.DESCR_PROD) = false := by
    cases h1 : truthy row.NUMERO_PO <;> cases h2 : truthy row.NUMERO_PC <;>
      cases h3 : truthy row.DESCR_PROD <;> simp_all
  refine ⟨fun h => ?_, fun h => ?_, fun h => ?_, fun h => ?_, fun h => ?_⟩ <;>
    simp only [processRow, hc, Bool.false_eq_true, if_false, Option.map_some'] <;>
    simp [h, truthy]

/-- Witness for C5: an absent supplier name defaults to "-". -/
theorem missing_fields_defaults_witness :
    ((processRow (fun _ => none) 0 (startOfDay 0) [] [] 0 c5Row).map
      fun i => i.RAZAO_FORNEC) = some "-" :=
  (missing_fields_defaults (fun _ => none) 0 (startOfDay 0) [] [] 0 c5Row (by decide)).1 rfl

/-! ### C9 — identity uniqueness within one import -/

theorem digitChar_ne_dash (k : Nat) : Nat.digitChar k ≠ '-' := by
  by_cases h : k < 16
  · interval_cases k <;> decide
  · unfold Nat.digitChar
    iterate 16 rw [if_neg (by omega)]
    decide

theorem toDigitsCore_ne_dash (b : Nat) :
    ∀ (fuel n : Nat) (ds : List Char), (∀ c ∈ ds, c ≠ '-') →
      ∀ c ∈ Nat.toDigitsCore b fuel n ds, c ≠ '-' := by
  intro fuel
  induction fuel with
  | zero => intro n ds hds c hc; exact hds c hc
  | succ fuel ih =>
    intro n ds hds c hc
    simp only [Nat.toDigitsCore] at hc
    split at hc
    · rcases List.mem_cons.mp hc with h | h
      · rw [h]; exact digitChar_ne_dash _
      · exact hds c h
    · refine ih _ _ ?_ c hc
      intro c' hc'
      rcases List.mem_cons.mp hc' with h | h
      · rw [h]; exact digitChar_ne_dash _
      · exact hds c' h

theorem repr_ne_dash (n : Nat) : ∀ c ∈ (Nat.repr n).data, c ≠ '-' := by
  intro c hc
  exact toDigitsCore_ne_dash 10 (n + 1) n [] (fun c' hc' => absurd hc' (List.not_mem_nil c')) c hc

theorem toDigitsCore_shift (b : Nat) :
    ∀ (fuel n : Nat) (ds : List Char),
      Nat.toDigitsCore b fuel n ds = Nat.toDigitsCore b fuel n [] ++ ds := by
  intro fuel
  induction fuel with
  | zero => intro n ds; rfl
  | succ fuel ih =>
    intro n ds
    simp only [Nat.toDigitsCore]
    split
    · rfl
    · rw [ih _ (Nat.digitChar (n % b) :: ds), ih _ [Nat.digitChar (n % b)]]
      simp

def digitsVal (l : List Char) : Nat :=
  l.foldl (fun a c => a * 10 + (c.toNat - 48)) 0

theorem digitChar_val (k : Nat) (h : k < 10) : (Nat.digitChar k).toNat - 48 = k := by
  interval_cases k <;> decide

theorem toDigitsCore_val :
    ∀ (fuel n : Nat), n < fuel → digitsVal (Nat.toDigitsCore 10 fuel n []) = n := by
  intro fuel
  induction fuel with
  | zero => intro n h; omega
  | succ fuel ih =>
    intro n h
    simp only [Nat.toDigitsCore]
    split
    · rename_i h0
      show digitsVal [Nat.digitChar (n % 10)] = n
      have hn : n < 10 := by omega
      have : n % 10 = n := Nat.mod_eq_of_lt hn
      simp [digitsVal, this, digitChar_val n hn]
    · rename_i h0
      rw [toDigitsCore_shift]
      have hb : 10 > 1 := by omega
      have hn10 : n / 10 < fuel := by
        have h1 : n / 10 < n := Nat.div_lt_self (by omega) (by omega)
        omega
      show digitsVal (Nat.toDigitsCore 10 fuel (n / 10) [] ++ [Nat.digitChar (n % 10)]) = n
      unfold digitsVal
      rw [List.foldl_append]
      have := ih (n / 10) hn10
      unfold digitsVal at this
      rw [this]
      show n / 10 * 10 + ((n % 10).digitChar.toNat - 48) = n
      rw [digitChar_val (n % 10) (Nat.mod_lt n (by omega))]
      omega

theorem repr_inj (m n : Nat) (h : (Nat.repr m).data = (Nat.repr n).data) : m = n := by
  have hm : (Nat.repr m).data = Nat.toDigitsCore 10 (m + 1) m [] := rfl
  have hn : (Nat.repr n).data = Nat.toDigitsCore 10 (n + 1) n [] := rfl
  have := congrArg digitsVal h
  rw [hm, hn] at this
  rw [toDigitsCore_val (m + 1) m (by omega), toDigitsCore_val (n + 1) n (by omega)] at this
  exact this

theorem dash_suffix_eq :
    ∀ (l₁ l₂ u v : List Char), ('-' ∉ u) → ('-' ∉ v) →
      l₁ ++ '-' :: u = l₂ ++ '-' :: v → u = v := by
  intro l₁
  induction l₁ with
  | nil =>
    intro l₂ u v hu hv h
    cases l₂ with
    | nil => exact (List.cons.injEq _ _ _ _ ▸ h).2
    | cons c l₂ =>
      rw [List.nil_append, List.cons_append] at h
      have hc := (List.cons.injEq _ _ _ _ ▸ h).1
      have ht := (List.cons.injEq _ _ _ _ ▸ h).2
      exact absurd (ht ▸ List.mem_append_right l₂ (List.mem_cons_self '-' v)) hu
  | cons c l₁ ih =>
    intro l₂ u v hu hv h
    cases l₂ with
    | nil =>
      rw [List.cons_append, List.nil_append] at h
      have ht := (List.cons.injEq _ _ _ _ ▸ h).2
      exact absurd (ht.symm ▸ List.mem_append_right l₁ (List.mem_cons_self '-' u)) hv
    | cons d l₂ =>
      rw [List.cons_append, List.cons_append] at h
      exact ih l₂ u v hu hv (List.cons.injEq _ _ _ _ ▸ h).2

theorem append_dash_repr_inj (a b : String) (i j : Nat)
    (h : a ++ "-" ++ Nat.repr i = b ++ "-" ++ Nat.repr j) : i = j := by
  have hdata : a.data ++ '-' :: (Nat.repr i).data = b.data ++ '-' :: (Nat.repr j).data := by
    have := congrArg String.data h
    simpa using this
  have := dash_suffix_eq a.data b.data (Nat.repr i).data (Nat.repr j).data
    (fun hmem => repr_ne_dash i '-' hmem rfl)
    (fun hmem => repr_ne_dash j '-' hmem rfl) hdata
  exact repr_inj i j this

theorem processRow_id_shape (parse : String → Option Int) (nowMs today : Int)
    (sm em : OverrideMap) (idx : Nat) (row : Row) (item : ImportItem)
    (h : processRow parse nowMs today sm em idx row = some item) :
    ∃ a : String, item.id = a ++ "-" ++ Nat.repr idx := by
  by_cases hc : (!truthy row.NUMERO_PO && !truthy row.NUMERO_PC && !truthy row.DESCR_PROD) = true
  · simp only [processRow, hc, if_true] at h
    cases h
  · simp only [processRow, hc, if_false, Bool.false_eq_true] at h
    rw [Option.some_inj] at h
    subst h
    by_cases hn : (match row.NUMERO_PO with
      | CellValue.blank => true
      | v => decide ((toStr v).trim = "")) = true
    · exact ⟨"NAT-" ++ (if truthy row.NUMERO_PC then toStr row.NUMERO_PC else "N/A"), by
        show (if _ = true then _ else _) = _
        rw [if_pos hn]⟩
    · refine ⟨(if (match row.NUMERO_PO with
          | CellValue.blank => true
          | v => decide ((toStr v).trim = "")) = true then ""
          else toStr row.NUMERO_PO) ++ "-" ++
          (if truthy row.NUMERO_PC then toStr row.NUMERO_PC else "N/A"), ?_⟩
      show (if _ = true then _ else _) = _
      rw [if_neg hn]

theorem ids_nodup_enumFrom (parse : String → Option Int) (nowMs today : Int)
    (sm em : OverrideMap) :
    ∀ (rows : List Row) (k : Nat),
      (((rows.enumFrom k).filterMap fun p => processRow parse nowMs today sm em p.1 p.2).map
        (fun i => i.id)).Nodup := by
  intro rows
  induction rows with
  | nil => intro k; simp
  | cons r rs ih =>
    intro k
    rw [List.enumFrom_cons, List.filterMap_cons]
    cases hg : processRow parse nowMs today sm em k r with
    | none => simpa [hg] using ih (k + 1)
    | some item =>
      simp only [hg, List.map_cons]
      rw [List.nodup_cons]
      refine ⟨?_, ih (k + 1)⟩
      intro hmem
      obtain ⟨item2, hmem2, hid⟩ := List.mem_map.mp hmem
      obtain ⟨q, hq, hq2⟩ := List.mem_filterMap.mp hmem2
      have hk : k + 1 ≤ q.1 := List.le_fst_of_mem_enumFrom hq
      obtain ⟨a, ha⟩ := processRow_id_shape parse nowMs today sm em q.1 q.2 item2 hq2
      obtain ⟨b, hb⟩ := processRow_id_shape parse nowMs today sm em k r item hg
      rw [ha, hb] at hid
      have := append_dash_repr_inj a b q.1 k hid
      omega

/-- C9: within any single import, the identities of all emitted records
are pairwise distinct — every identity (national-prefixed or imported)
ends in "-" followed by the decimal ordinal of its row, the part after
the final dash is dash-free, and distinct ordinals therefore force
distinct identities even when the purchase-order / purchase-contract
business keys repeat across rows. -/
theorem processExcelData_ids_nodup (parse : String → Option Int) (nowMs : Int)
    (sm em : OverrideMap) (rows : List Row) :
    ((processExcelData parse nowMs sm em rows).map fun i => i.id).Nodup := by
  unfold processExcelData
  exact ids_nodup_enumFrom parse nowMs (startOfDay nowMs) sm em rows 0


end FollowUPS

